import Mathlib

/-
Verification of the scheduler-service core against its specification.

The definitions below are a shallow embedding of the TypeScript sources:
  * src/lib/scheduler.ts  (calculateInitialDelay, calculateRepeatOptions,
    calculateNextRun, calculateIntervalInMs, calculateNextRunForInterval,
    formatDate)
  * src/types/payload.ts  (sanitizePayload and the 1 MiB size bound)
  * src/lib/errorHandler.ts (categorizeError, isRetryableError)
  * src/workers/schedulerWorker.ts (validateTargetUrl and the active worker
    delivery procedure)
  * src/api/server.ts (POST /jobs, PUT /jobs/:id, DELETE /jobs/:id,
    POST /jobs/:id/run handlers)
  * src/queues/index.ts (active queue and dead-letter queue state)

Time is modelled in milliseconds.  A JavaScript Date is modelled by the
calendar tuple the Date setters act on (year, month, day, ms-of-day); its
timestamp semantics is given by JsDate.toMs.  Tuples are unnormalised: toMs
follows the ECMAScript MakeDay/MakeDate normalisation, so two tuples denote
the same instant exactly when their toMs agree.
-/

/-- Schedule types from src/types/job.ts. -/
inductive ScheduleType where
  | cron
  | specific_time
  | recurring
deriving DecidableEq, Repr

/-- Job types from src/types/job.ts (only HTTP exists). -/
inductive JobType where
  | http
deriving DecidableEq, Repr

/-- Interval types from src/types/job.ts. -/
inductive IntervalType where
  | minute
  | hour
  | day
  | week
  | month
  | year
deriving DecidableEq, Repr

/-- Job status values from src/types/job.ts. -/
inductive JobStatus where
  | active
  | inactive
  | failed
deriving DecidableEq, Repr

/-- Gregorian leap-year rule, as used by the ECMAScript Date object. -/
def isLeap (y : Nat) : Bool :=
  y % 4 == 0 && (y % 100 != 0 || y % 400 == 0)

/-- Number of days of month m (0-indexed as in JavaScript) of year y. -/
def daysInMonth (y m : Nat) : Nat :=
  if m = 1 then (if isLeap y then 29 else 28)
  else if m = 3 ∨ m = 5 ∨ m = 8 ∨ m = 10 then 30
  else 31

/-- Days from the calendar origin to the start of absolute month k,
where absolute month k denotes month (k % 12) of year (k / 12). -/
def monthStartDays : Nat → Nat
  | 0 => 0
  | k + 1 => monthStartDays k + daysInMonth ((k) / 12) ((k) % 12)

/-- Milliseconds in a minute, hour, day and week. -/
def msPerMinute : Nat := 60 * 1000
def msPerHour : Nat := 60 * 60 * 1000
def msPerDay : Nat := 24 * 60 * 60 * 1000
def msPerWeek : Nat := 7 * 24 * 60 * 60 * 1000

/-- Model of a JavaScript Date: the calendar tuple acted on by the
setMinutes/setHours/setDate/setMonth/setFullYear mutators.  Fields may be
unnormalised (month may exceed 11, msOfDay may exceed one day); the
timestamp semantics toMs performs the ECMAScript normalisation. -/
structure JsDate where
  year : Nat
  month : Nat
  day : Nat
  msOfDay : Nat
deriving DecidableEq, Repr

/-- Timestamp of a calendar tuple, following ECMAScript MakeDay/MakeDate:
start of the (possibly overflowed) month, plus day-1 days, plus the
time of day. Requires day ≥ 1 for exact agreement (truncated subtraction). -/
def JsDate.toMs (d : JsDate) : Nat :=
  (monthStartDays (12 * d.year + d.month) + (d.day - 1)) * msPerDay + d.msOfDay

/-- A Date built directly from a timestamp (new Date(ms)); toMs of this
tuple is exactly ms. -/
def JsDate.ofMs (ms : Nat) : JsDate :=
  ⟨0, 0, 1, ms⟩

/-- Adding k milliseconds to a Date: what setMinutes(getMinutes()+v) and
the hour/day/week analogues amount to at the timestamp level. -/
def JsDate.addMs (d : JsDate) (k : Nat) : JsDate :=
  { d with msOfDay := d.msOfDay + k }

/-- setMonth(getMonth() + v): bump the month field, leaving day and time
untouched (overflow is resolved by toMs). -/
def JsDate.addMonths (d : JsDate) (v : Nat) : JsDate :=
  { d with month := d.month + v }

/-- setFullYear(getFullYear() + v). -/
def JsDate.addYears (d : JsDate) (v : Nat) : JsDate :=
  { d with year := d.year + v }

/-- Model of a cron expression after cron-parser has seen it: either the
parse fails, or it denotes an infinite arithmetic progression of instants
(period is periodPred + 1 ms, so it is always positive; phase selects the
residue).  Real cron occurrence sets are of this recurring shape; the only
facts the program relies on are parse success/failure and that the next
occurrence is strictly after the reference instant, which the spec fixes
with its exclusive tie-break rule. -/
inductive CronExpr where
  | invalid
  | valid (periodPred phase : Nat)
deriving DecidableEq, Repr

/-- First instant strictly after t that is ≡ phase mod period (period > 0):
the next cron occurrence after the reference instant, which cron-parser
computes with the reference instant excluded. -/
def cronNextMs (period phase t : Nat) : Nat :=
  t + 1 + ((phase + period - (t + 1) % period) % period)

mutual
/-- A JSON value as passed through the payload pipeline. -/
inductive JVal where
  | jsonNull : JVal
  | jsonBool (b : Bool) : JVal
  | jsonNum (n : Int) : JVal
  | jsonStr (s : String) : JVal
  | arr (elems : JArr) : JVal
  | obj (fields : JObj) : JVal
/-- A JSON array. -/
inductive JArr where
  | nil : JArr
  | cons (hd : JVal) (tl : JArr) : JArr
/-- A JSON object: its fields in entry order. -/
inductive JObj where
  | nil : JObj
  | cons (key : String) (val : JVal) (tl : JObj) : JObj
end

deriving instance DecidableEq for JVal
deriving instance DecidableEq for JArr
deriving instance DecidableEq for JObj

/-- A validated job input (the value obtained from JobSchema.safeParse in
src/types/job.ts; the status default has been applied).  specific_time is
the timestamp of the ISO string; cron_expression carries the cron-parser
outcome for the string. -/
structure JobInput where
  name : String
  description : Option String
  jobType : JobType
  target : String
  payload : Option JObj
  schedule_type : ScheduleType
  cron_expression : Option CronExpr
  specific_time : Option Nat
  interval : Option IntervalType
  interval_value : Option Int
  status : JobStatus
deriving DecidableEq

/-- calculateInitialDelay from src/lib/scheduler.ts: for SPECIFIC_TIME jobs
the distance to the specific time if it is still ahead, otherwise null. -/
def calculateInitialDelay (job : JobInput) (now : Nat) : Option Nat :=
  if job.schedule_type ≠ ScheduleType.specific_time then none
  else
    match job.specific_time with
    | none => none
    | some st => if st ≤ now then none else some (st - now)

/-- The repeat options object passed to BullMQ. -/
inductive RepeatOptions where
  | cron (expr : CronExpr)
  | every (ms : Int)
deriving DecidableEq, Repr

/-- calculateIntervalInMs from src/lib/scheduler.ts: fixed-duration
intervals in milliseconds; null for non-positive values and for MONTH and
YEAR, which have no fixed duration. -/
def calculateIntervalInMs (interval : IntervalType) (value : Int) : Option Int :=
  if value ≤ 0 then none
  else
    match interval with
    | IntervalType.minute => some (value * 60 * 1000)
    | IntervalType.hour => some (value * 60 * 60 * 1000)
    | IntervalType.day => some (value * 24 * 60 * 60 * 1000)
    | IntervalType.week => some (value * 7 * 24 * 60 * 60 * 1000)
    | IntervalType.month => none
    | IntervalType.year => none

/-- calculateRepeatOptions from src/lib/scheduler.ts.  CRON: null when the
expression is missing or fails to parse, else the cron option.  RECURRING:
null when interval or interval_value is missing or falsy (zero), else the
fixed duration when one exists.  Any other schedule type: null. -/
def calculateRepeatOptions (job : JobInput) : Option RepeatOptions :=
  match job.schedule_type with
  | ScheduleType.cron =>
    match job.cron_expression with
    | none => none
    | some CronExpr.invalid => none
    | some (CronExpr.valid p ph) => some (RepeatOptions.cron (CronExpr.valid p ph))
  | ScheduleType.recurring =>
    match job.interval, job.interval_value with
    | some i, some v =>
      if v = 0 then none
      else
        match calculateIntervalInMs i v with
        | none => none
        | some ms => some (RepeatOptions.every ms)
    | _, _ => none
  | ScheduleType.specific_time => none

/-- calculateNextRunForInterval from src/lib/scheduler.ts: add the interval
to lastRun with the Date setters (calendar arithmetic for MONTH/YEAR). -/
def calculateNextRunForInterval (interval : IntervalType) (value : Int)
    (lastRun : JsDate) : Option JsDate :=
  if value ≤ 0 then none
  else
    match interval with
    | IntervalType.minute => some (lastRun.addMs (value.toNat * msPerMinute))
    | IntervalType.hour => some (lastRun.addMs (value.toNat * msPerHour))
    | IntervalType.day => some (lastRun.addMs (value.toNat * msPerDay))
    | IntervalType.week => some (lastRun.addMs (value.toNat * msPerWeek))
    | IntervalType.month => some (lastRun.addMonths value.toNat)
    | IntervalType.year => some (lastRun.addYears value.toNat)

/-- calculateNextRun from src/lib/scheduler.ts.  The reference instant
lastRun defaults to the current time at call sites; now is the instant the
internal new Date() observes.  CRON iterates the parsed expression from
lastRun; SPECIFIC_TIME returns the specific time when it is strictly after
now (not lastRun); RECURRING adds the interval to lastRun. -/
def calculateNextRun (job : JobInput) (lastRun : JsDate) (now : Nat) :
    Option JsDate :=
  match job.schedule_type with
  | ScheduleType.cron =>
    match job.cron_expression with
    | none => none
    | some CronExpr.invalid => none
    | some (CronExpr.valid p ph) =>
      some (JsDate.ofMs (cronNextMs (p + 1) ph lastRun.toMs))
  | ScheduleType.specific_time =>
    match job.specific_time with
    | none => none
    | some st => if st ≤ now then none else some (JsDate.ofMs st)
  | ScheduleType.recurring =>
    match job.interval, job.interval_value with
    | some i, some v =>
      if v = 0 then none else calculateNextRunForInterval i v lastRun
    | _, _ => none

/-- formatDate from src/lib/scheduler.ts renders an ISO string without the
millisecond part; at the timestamp level stored values are truncated to
whole seconds. -/
def formatDateMs (ms : Nat) : Nat :=
  ms / 1000 * 1000

/-
JSON values and payload sanitisation, from src/types/payload.ts.
A payload is a JSON object; JObj is an association list of fields (keys are
unique in objects produced by JSON.parse, and the functions below treat the
list order-preservingly, matching Object.entries).
-/

/-- The dangerous property names stripped by sanitizePayload. -/
def dangerousProps : List String := ["__proto__", "constructor", "prototype"]

/-- sanitizePayload from src/types/payload.ts: drop the dangerous keys of
the object, then recurse into every remaining value that is a non-array
object (the Array.isArray test makes the recursion skip arrays, and only
plain objects pass the typeof test). -/
def sanitizePayload : JObj → JObj
  | JObj.nil => JObj.nil
  | JObj.cons k v tl =>
    if dangerousProps.contains k then sanitizePayload tl
    else
      match v with
      | JVal.obj fields => JObj.cons k (JVal.obj (sanitizePayload fields)) (sanitizePayload tl)
      | _ => JObj.cons k v (sanitizePayload tl)

mutual
/-- Does a value contain a dangerous key at any depth, descending into both
objects and arrays?  This is the property the spec asserts of the
sanitiser output. -/
def hasDangerousVal : JVal → Bool
  | JVal.obj fields => hasDangerousObj fields
  | JVal.arr elems => hasDangerousArr elems
  | _ => false
/-- Dangerous-key search inside an array. -/
def hasDangerousArr : JArr → Bool
  | JArr.nil => false
  | JArr.cons hd tl => hasDangerousVal hd || hasDangerousArr tl
/-- Dangerous-key search inside an object. -/
def hasDangerousObj : JObj → Bool
  | JObj.nil => false
  | JObj.cons k v tl =>
    dangerousProps.contains k || hasDangerousVal v || hasDangerousObj tl
end

/-- Dangerous-key freedom along chains of plain objects only: the region of
a payload that sanitizePayload actually visits (arrays are not entered). -/
def objChainClean : JObj → Bool
  | JObj.nil => true
  | JObj.cons k v tl =>
    !dangerousProps.contains k &&
    (match v with
     | JVal.obj fields => objChainClean fields
     | _ => true) &&
    objChainClean tl

/-
Serialised JSON length, modelling JSON.stringify(payload).length, used for
the 1 MiB payload bound.  String escape sequences are not expanded (the
model counts the raw characters plus the two quotes), which matches
stringify for strings without characters needing escapes.
-/

mutual
/-- Length of the JSON.stringify output of a value. -/
def jsonLenVal : JVal → Nat
  | JVal.jsonNull => 4
  | JVal.jsonBool b => if b then 4 else 5
  | JVal.jsonNum n => (toString n).length
  | JVal.jsonStr s => s.length + 2
  | JVal.arr elems => jsonLenArr elems + 2
  | JVal.obj fields => jsonLenObj fields + 2
/-- Accumulated length of array elements: each element followed by a comma
except the last (brackets are counted by the caller). -/
def jsonLenArr : JArr → Nat
  | JArr.nil => 0
  | JArr.cons hd tl =>
    jsonLenVal hd + (match tl with | JArr.nil => 0 | _ => 1) + jsonLenArr tl
/-- Accumulated length of object fields: quoted key, colon and value, with
a comma after every field but the last. -/
def jsonLenObj : JObj → Nat
  | JObj.nil => 0
  | JObj.cons k v tl =>
    k.length + 3 + jsonLenVal v + (match tl with | JObj.nil => 0 | _ => 1) +
      jsonLenObj tl
end

/-- Length of JSON.stringify of a whole payload object. -/
def jsonLenTop (p : JObj) : Nat :=
  jsonLenObj p + 2

/-- MAX_PAYLOAD_SIZE from src/types/payload.ts (1 MiB). -/
def MAX_PAYLOAD_SIZE : Nat := 1024 * 1024

/-
Error categorisation, from src/lib/errorHandler.ts.
-/

/-- The error taxonomy of the worker. -/
inductive ErrorCategory where
  | network
  | timeout
  | server
  | client
  | validation
  | unknown
deriving DecidableEq, Repr

/-- A thrown JavaScript error as categorizeError observes it: the two
instanceof tests, the optional error code, the message, and the response
status when an HTTP response was received. -/
structure JsError where
  isZodError : Bool
  isAxiosError : Bool
  code : Option String
  message : String
  responseStatus : Option Int
deriving DecidableEq, Repr

/-- Do the characters of the second list start with those of the first? -/
def charsStartWith : List Char → List Char → Bool
  | [], _ => true
  | _ :: _, [] => false
  | p :: ps, c :: cs => p == c && charsStartWith ps cs

/-- Does the second list contain the first as a contiguous run? -/
def charsContain (pat : List Char) : List Char → Bool
  | [] => charsStartWith pat []
  | c :: cs => charsStartWith pat (c :: cs) || charsContain pat cs

/-- The String.prototype.includes test used on error messages. -/
def strIncludes (s pat : String) : Bool :=
  charsContain pat.toList s.toList

/-- categorizeError from src/lib/errorHandler.ts, with the branch order of
the source: ZodError first; then axios errors without a response (code
ECONNABORTED, code ConnectionRefused, message tests, network fallback);
then response status ranges; everything else is unknown. -/
def categorizeError (e : JsError) : ErrorCategory :=
  if e.isZodError then ErrorCategory.validation
  else if e.isAxiosError then
    match e.responseStatus with
    | none =>
      if e.code == some "ECONNABORTED" then ErrorCategory.timeout
      else if e.code == some "ConnectionRefused" then ErrorCategory.network
      else if strIncludes e.message "timeout" then ErrorCategory.timeout
      else if strIncludes e.message "network" || strIncludes e.message "connect" then
        ErrorCategory.network
      else ErrorCategory.network
    | some status =>
      if 400 ≤ status ∧ status < 500 then ErrorCategory.client
      else if 500 ≤ status then ErrorCategory.server
      else ErrorCategory.unknown
  else ErrorCategory.unknown

/-- isRetryableError from src/lib/errorHandler.ts: retry exactly the
network, timeout and server categories. -/
def isRetryableError (e : JsError) : Bool :=
  [ErrorCategory.network, ErrorCategory.timeout, ErrorCategory.server].contains
    (categorizeError e)

/-
Engine state: the jobs table (src/db/init.sql), the BullMQ active queue
and the dead-letter queue (src/queues/index.ts).
-/

/-- A row of the jobs table. -/
structure JobRow where
  id : String
  name : String
  description : Option String
  jobType : JobType
  target : String
  payload : Option JObj
  cron_expression : Option CronExpr
  schedule_type : ScheduleType
  specific_time : Option Nat
  interval : Option IntervalType
  interval_value : Option Int
  next_run : Option Nat
  last_run : Option Nat
  error_message : Option String
  status : JobStatus
  created_at : Nat
  updated_at : Nat
deriving DecidableEq

/-- The payload a queue entry carries to the worker (JobData in
src/types/job.ts). -/
structure JobData where
  jobId : String
  target : String
  jobType : JobType
  payload : Option JObj
deriving DecidableEq

/-- How a queue entry fires: once after a delay, or repeatedly. -/
inductive QueueMode where
  | delayed (delayMs : Nat)
  | repeating (plan : RepeatOptions)
deriving DecidableEq

/-- An entry of a BullMQ queue: its job id (the key used by remove), its
name, its data and its firing mode. -/
structure QueueEntry where
  key : String
  entryName : String
  data : JobData
  mode : QueueMode
deriving DecidableEq

/-- The state the engine operates on: the jobs table, the active queue and
the dead-letter queue. -/
structure EngineState where
  jobs : List JobRow
  queue : List QueueEntry
  dlq : List QueueEntry
deriving DecidableEq

/-- SELECT * FROM jobs WHERE id = $1 (ids are the primary key). -/
def findJob (jobs : List JobRow) (id : String) : Option JobRow :=
  jobs.find? (fun r => r.id == id)

/-- Outcomes the REST handlers in src/api/server.ts produce. -/
inductive ApiResult where
  | jobCreated
  | jobUpdated
  | jobDeleted
  | jobTriggered
  | notFound
  | invalidScheduleConfig
  | specificTimeInPast
  | invalidRepeatConfig
deriving DecidableEq, Repr

/-- The fresh row INSERTed by the POST /jobs handler: the schedule fields
of the input, the computed next_run, the requested status (defaulted to
active by the schema) and a null error_message. -/
def newJobRow (input : JobInput) (newId : String) (nextRun : Option Nat)
    (now : Nat) : JobRow :=
  { id := newId
    name := input.name
    description := input.description
    jobType := input.jobType
    target := input.target
    payload := input.payload
    cron_expression := input.cron_expression
    schedule_type := input.schedule_type
    specific_time := input.specific_time
    interval := input.interval
    interval_value := input.interval_value
    next_run := nextRun
    last_run := none
    error_message := none
    status := input.status
    created_at := now
    updated_at := now }

/-- The BullMQ job data built by the create/update/run handlers. -/
def inputJobData (input : JobInput) (id : String) : JobData :=
  { jobId := id, target := input.target, jobType := input.jobType,
    payload := input.payload }

/-- Modelled from the spec: queue.remove(key) of the BullMQ dispatch queue
(the queue itself lives in the library, outside this repository).  Per
section 4.3 of the specification it cancels any pending one-shot and any
repeating registration for the key, and is idempotent. -/
def queueRemove (queue : List QueueEntry) (key : String) : List QueueEntry :=
  queue.filter (fun e => e.key != key)

/-- POST /jobs from src/api/server.ts: compute next_run (null plus a
non-SPECIFIC_TIME schedule is rejected before any write), INSERT the row,
then either enqueue one-shot with the initial delay (null delay means the
specific time is past: the handler returns 400 with the row already
inserted) or enqueue repeating (null repeat options: 400, again with the
row already inserted — the handler performs no rollback). -/
def createJob (s : EngineState) (input : JobInput) (newId : String)
    (now : Nat) : EngineState × ApiResult :=
  let nextRun := calculateNextRun input (JsDate.ofMs now) now
  if nextRun = none ∧ input.schedule_type ≠ ScheduleType.specific_time then
    (s, ApiResult.invalidScheduleConfig)
  else
    let row := newJobRow input newId (nextRun.map (fun d => formatDateMs d.toMs)) now
    let s1 : EngineState := { s with jobs := s.jobs ++ [row] }
    if input.schedule_type = ScheduleType.specific_time then
      match calculateInitialDelay input now with
      | none => (s1, ApiResult.specificTimeInPast)
      | some delay =>
        ({ s1 with queue := s1.queue ++
            [⟨newId, input.name, inputJobData input newId, QueueMode.delayed delay⟩] },
          ApiResult.jobCreated)
    else
      match calculateRepeatOptions input with
      | none => (s1, ApiResult.invalidRepeatConfig)
      | some plan =>
        ({ s1 with queue := s1.queue ++
            [⟨newId, input.name, inputJobData input newId, QueueMode.repeating plan⟩] },
          ApiResult.jobCreated)

/-- The field rewrite performed by the PUT /jobs/:id UPDATE statement: all
input fields and the recomputed next_run are written; id, created_at,
last_run and error_message are untouched. -/
def updatedRow (r : JobRow) (input : JobInput) (nextRun : Option Nat)
    (now : Nat) : JobRow :=
  { r with
    name := input.name
    description := input.description
    jobType := input.jobType
    target := input.target
    payload := input.payload
    cron_expression := input.cron_expression
    schedule_type := input.schedule_type
    specific_time := input.specific_time
    interval := input.interval
    interval_value := input.interval_value
    next_run := nextRun
    status := input.status
    updated_at := now }

/-- PUT /jobs/:id from src/api/server.ts: 404 when the row is absent;
otherwise validate the schedule as in create, UPDATE the row, remove the
old queue registration, and re-enqueue per the new schedule (with the same
400-without-rollback behaviour as create when the delay or the repeat
options come out null). -/
def updateJob (s : EngineState) (id : String) (input : JobInput)
    (now : Nat) : EngineState × ApiResult :=
  match findJob s.jobs id with
  | none => (s, ApiResult.notFound)
  | some _ =>
    let nextRun := calculateNextRun input (JsDate.ofMs now) now
    if nextRun = none ∧ input.schedule_type ≠ ScheduleType.specific_time then
      (s, ApiResult.invalidScheduleConfig)
    else
      let nr := nextRun.map (fun d => formatDateMs d.toMs)
      let s1 : EngineState :=
        { s with jobs := s.jobs.map (fun r =>
            if r.id == id then updatedRow r input nr now else r) }
      let s2 : EngineState := { s1 with queue := queueRemove s1.queue id }
      if input.schedule_type = ScheduleType.specific_time then
        match calculateInitialDelay input now with
        | none => (s2, ApiResult.specificTimeInPast)
        | some delay =>
          ({ s2 with queue := s2.queue ++
              [⟨id, input.name, inputJobData input id, QueueMode.delayed delay⟩] },
            ApiResult.jobUpdated)
      else
        match calculateRepeatOptions input with
        | none => (s2, ApiResult.invalidRepeatConfig)
        | some plan =>
          ({ s2 with queue := s2.queue ++
              [⟨id, input.name, inputJobData input id, QueueMode.repeating plan⟩] },
            ApiResult.jobUpdated)

/-- DELETE /jobs/:id from src/api/server.ts: DELETE the row (404 when
nothing was deleted, in which case the queue is not touched either), then
queue.remove(id).  No operation on the dead-letter queue is performed. -/
def deleteJob (s : EngineState) (id : String) : EngineState × ApiResult :=
  match findJob s.jobs id with
  | none => (s, ApiResult.notFound)
  | some _ =>
    ({ s with
        jobs := s.jobs.filter (fun r => r.id != id)
        queue := queueRemove s.queue id },
      ApiResult.jobDeleted)

/-- POST /jobs/:id/run from src/api/server.ts: 404 when the row is absent;
otherwise add a one-shot entry with no delay under the time-qualified
manual key, leaving the row and the scheduled registration alone. -/
def runNowJob (s : EngineState) (id : String) (now : Nat) :
    EngineState × ApiResult :=
  match findJob s.jobs id with
  | none => (s, ApiResult.notFound)
  | some row =>
    ({ s with queue := s.queue ++
        [⟨id ++ "-manual-" ++ toString now, row.name ++ "-manual",
          ⟨id, row.target, row.jobType, row.payload⟩, QueueMode.delayed 0⟩] },
      ApiResult.jobTriggered)

/-
The delivery worker, from src/workers/schedulerWorker.ts.
-/

/-- The outcome of new URL(target): the protocol and hostname on success,
none when parsing throws. -/
structure Url where
  protocol : String
  hostname : String
deriving DecidableEq, Repr

/-- One allow-list entry test of validateTargetUrl: a leading star-dot
matches the bare domain and every subdomain, anything else must equal the
hostname. -/
def allowedHostMatches (hostname allowedHost : String) : Bool :=
  if allowedHost.startsWith "*." then
    let domain := allowedHost.drop 2
    hostname == domain || hostname.endsWith ("." ++ domain)
  else hostname == allowedHost

/-- validateTargetUrl from src/workers/schedulerWorker.ts, on the parse
outcome of the target string: reject unparsable URLs and non-http(s)
protocols; a localhost or 127.0.0.1 hostname only triggers a logged
warning, never a rejection; an empty allow-list permits every host,
otherwise the hostname must match some entry. -/
def validateTargetUrl (allowedTargetHosts : List String) (url : Option Url) :
    Bool :=
  match url with
  | none => false
  | some u =>
    if !(["http:", "https:"].contains u.protocol) then false
    else if allowedTargetHosts.isEmpty then true
    else if allowedTargetHosts.any (fun a => allowedHostMatches u.hostname a) then
      true
    else false

/-- The outcome the retry-wrapped axios.post settles on: overall success,
or the error the final attempt threw (the retry loop re-raises it). -/
inductive DeliveryOutcome where
  | ok
  | err (e : JsError)

/-- What one run of the worker handler produced: the new engine state,
whether an outbound HTTP request was attempted, and the error re-raised to
BullMQ, if any. -/
structure WorkerResult where
  state : EngineState
  httpAttempted : Bool
  raised : Option JsError

/-- An error thrown locally by the worker body (a plain Error: neither a
ZodError nor an axios error). -/
def mkLocalError (msg : String) : JsError :=
  ⟨false, false, none, msg, none⟩

/-- The catch block of the worker handler (src/workers/schedulerWorker.ts
lines 202-245): build the message (falling back when it is empty), keep
the job active with a temporary-failure note for retryable errors, mark it
FAILED otherwise, UPDATE the row, and re-raise.  Nothing is enqueued into
the dead-letter queue. -/
def workerCatch (s : EngineState) (jobId : String) (e : JsError) (now : Nat)
    (httpAttempted : Bool) : WorkerResult :=
  let baseMsg := if e.message = "" then "Unknown error" else e.message
  let retry := isRetryableError e
  let msg :=
    if retry then "Temporary failure: " ++ baseMsg ++ ". The job will be retried."
    else baseMsg
  let st := if retry then JobStatus.active else JobStatus.failed
  { state :=
      { s with jobs := s.jobs.map (fun r =>
          if r.id == jobId then
            { r with error_message := some msg, status := st, updated_at := now }
          else r) }
    httpAttempted := httpAttempted
    raised := some e }

/-- The success epilogue of the worker handler: recompute next_run for
non-one-shot schedules, then UPDATE last_run, next_run and a cleared
error_message, leaving status untouched. -/
def workerComplete (s : EngineState) (jobId : String) (row : JobRow)
    (now : Nat) : WorkerResult :=
  let nextRun :=
    if row.schedule_type ≠ ScheduleType.specific_time then
      calculateNextRun
        { name := row.name, description := row.description
          jobType := row.jobType, target := row.target, payload := row.payload
          schedule_type := row.schedule_type
          cron_expression := row.cron_expression
          specific_time := row.specific_time, interval := row.interval
          interval_value := row.interval_value, status := row.status }
        (JsDate.ofMs now) now
    else none
  { state :=
      { s with jobs := s.jobs.map (fun r =>
          if r.id == jobId then
            { r with
                last_run := some now
                next_run := nextRun.map (fun d => formatDateMs d.toMs)
                error_message := none
                updated_at := now }
          else r) }
    httpAttempted := true
    raised := none }

/-- The active worker handler from src/workers/schedulerWorker.ts: re-read
the authoritative row (absent: succeed with nothing to do; INACTIVE:
succeed without delivery); validate the target URL and the payload size
(violations throw local errors that the catch block classifies as
non-retryable); attempt the HTTP POST, whose settled outcome is the
delivery argument; on success write the completion, on failure run the
catch block.  The url argument is the parse outcome of data.target and
allowedTargetHosts the environment allow-list. -/
def processJob (s : EngineState) (data : JobData) (url : Option Url)
    (allowedTargetHosts : List String) (delivery : DeliveryOutcome)
    (now : Nat) : WorkerResult :=
  match findJob s.jobs data.jobId with
  | none => ⟨s, false, none⟩
  | some row =>
    if row.status = JobStatus.inactive then ⟨s, false, none⟩
    else
      -- JobType has the single constructor http, so the unsupported-type
      -- throw of the source is unreachable.
      if validateTargetUrl allowedTargetHosts url = false then
        workerCatch s data.jobId
          (mkLocalError ("Invalid or unauthorized target URL: " ++ data.target))
          now false
      else if MAX_PAYLOAD_SIZE <
          jsonLenTop (match data.payload with | some p => p | none => JObj.nil) then
        workerCatch s data.jobId
          (mkLocalError "Payload size exceeds maximum allowed size") now false
      else
        -- validateAndSanitizePayload re-checks the same 1 MiB bound inside
        -- zod (already known to hold here) and sanitises the payload that
        -- is posted; the sanitised body does not flow back into the state.
        match delivery with
        | DeliveryOutcome.err e => workerCatch s data.jobId e now true
        | DeliveryOutcome.ok => workerComplete s data.jobId row now

/-- One queue dispatch as the worker receives it: the entry data plus the
ambient facts of that run (URL parse outcome, allow-list, settled HTTP
outcome, wall clock). -/
structure Dispatch where
  data : JobData
  url : Option Url
  allowedTargetHosts : List String
  delivery : DeliveryOutcome
  now : Nat

/-- Run the worker handler over a sequence of dispatches, counting how many
outbound HTTP attempts were made in total. -/
def processSeq (s : EngineState) : List Dispatch → EngineState × Nat
  | [] => (s, 0)
  | dsp :: rest =>
    let r := processJob s dsp.data dsp.url dsp.allowedTargetHosts
      dsp.delivery dsp.now
    let out := processSeq r.state rest
    (out.1, (if r.httpAttempted then 1 else 0) + out.2)

/-
The committed operations of the engine, for stating store invariants: the
coordinator operations of src/api/server.ts and the worker completions of
src/workers/schedulerWorker.ts.
-/

/-- A committed operation on the engine state. -/
inductive Op where
  | create (input : JobInput) (newId : String) (now : Nat)
  | update (id : String) (input : JobInput) (now : Nat)
  | delete (id : String)
  | runNow (id : String) (now : Nat)
  | deliver (data : JobData) (url : Option Url)
      (allowedTargetHosts : List String) (outcome : DeliveryOutcome) (now : Nat)

/-- Apply one operation to the engine state. -/
def applyOp (s : EngineState) : Op → EngineState
  | Op.create input newId now => (createJob s input newId now).1
  | Op.update id input now => (updateJob s id input now).1
  | Op.delete id => (deleteJob s id).1
  | Op.runNow id now => (runNowJob s id now).1
  | Op.deliver data url allowed outcome now =>
    (processJob s data url allowed outcome now).state

/-- The store invariant of the specification: every FAILED row carries an
error message. -/
def errorInvariant (s : EngineState) : Prop :=
  ∀ r ∈ s.jobs, r.status = JobStatus.failed → r.error_message ≠ none

instance (s : EngineState) : Decidable (errorInvariant s) := by
  unfold errorInvariant; infer_instance

/-- The side conditions under which the operations preserve the invariant:
create and update must not be asked to write status FAILED (the schema
accepts it and neither handler writes an error message), and a delivery
whose HTTP outcome is success must not be for a job already FAILED (the
completion clears error_message but leaves status alone). -/
def opOk (s : EngineState) : Op → Prop
  | Op.create input _ _ => input.status ≠ JobStatus.failed
  | Op.update _ input _ => input.status ≠ JobStatus.failed
  | Op.delete _ => True
  | Op.runNow _ _ => True
  | Op.deliver data _ _ DeliveryOutcome.ok _ =>
    ∀ r ∈ s.jobs, r.id = data.jobId → r.status ≠ JobStatus.failed
  | Op.deliver _ _ _ (DeliveryOutcome.err _) _ => True

/-
Helper lemmas about the calendar model.
-/

/-- Every month has at least 28 days. -/
lemma daysInMonth_ge (y m : Nat) : 28 ≤ daysInMonth y m := by
  unfold daysInMonth
  split
  · split <;> omega
  · split <;> omega

/-- One more month strictly advances the month start. -/
lemma monthStartDays_lt_succ (k : Nat) :
    monthStartDays k < monthStartDays (k + 1) := by
  have hd := daysInMonth_ge (k / 12) (k % 12)
  have h : monthStartDays (k + 1) =
      monthStartDays k + daysInMonth (k / 12) (k % 12) := rfl
  omega

/-- Month starts are strictly increasing in the absolute month index. -/
lemma monthStartDays_lt (k v : Nat) (hv : 0 < v) :
    monthStartDays k < monthStartDays (k + v) := by
  induction v with
  | zero => omega
  | succ n ih =>
    have hs := monthStartDays_lt_succ (k + n)
    have harr : k + (n + 1) = (k + n) + 1 := by omega
    rw [harr]
    rcases Nat.eq_zero_or_pos n with h0 | hpos
    · subst h0; simpa using hs
    · exact lt_trans (ih hpos) hs

/-- Timestamp of a Date built from a raw timestamp. -/
lemma JsDate.toMs_ofMs (ms : Nat) : (JsDate.ofMs ms).toMs = ms := by
  simp [JsDate.ofMs, JsDate.toMs, monthStartDays]

/-- Adding milliseconds advances the timestamp by exactly that amount. -/
lemma JsDate.toMs_addMs (d : JsDate) (k : Nat) :
    (d.addMs k).toMs = d.toMs + k := by
  simp [JsDate.addMs, JsDate.toMs]
  ring

/-- Bumping the month field by a positive count strictly advances the
timestamp. -/
lemma JsDate.toMs_addMonths_gt (d : JsDate) (v : Nat) (hv : 0 < v) :
    d.toMs < (d.addMonths v).toMs := by
  have h := monthStartDays_lt (12 * d.year + d.month) v hv
  simp only [JsDate.addMonths, JsDate.toMs]
  have harr : 12 * d.year + (d.month + v) = 12 * d.year + d.month + v := by omega
  rw [harr]
  have hmul : (monthStartDays (12 * d.year + d.month) + (d.day - 1)) * msPerDay <
      (monthStartDays (12 * d.year + d.month + v) + (d.day - 1)) * msPerDay := by
    apply mul_lt_mul_of_pos_right
    · omega
    · unfold msPerDay; omega
  omega

/-- Bumping the year field by a positive count strictly advances the
timestamp. -/
lemma JsDate.toMs_addYears_gt (d : JsDate) (v : Nat) (hv : 0 < v) :
    d.toMs < (d.addYears v).toMs := by
  have h := monthStartDays_lt (12 * d.year + d.month) (12 * v) (by omega)
  simp only [JsDate.addYears, JsDate.toMs]
  have harr : 12 * (d.year + v) + d.month = 12 * d.year + d.month + 12 * v := by
    omega
  rw [harr]
  have hmul : (monthStartDays (12 * d.year + d.month) + (d.day - 1)) * msPerDay <
      (monthStartDays (12 * d.year + d.month + 12 * v) + (d.day - 1)) * msPerDay := by
    apply mul_lt_mul_of_pos_right
    · omega
    · unfold msPerDay; omega
  omega

/-- The next cron occurrence is strictly after the reference instant. -/
lemma cronNextMs_gt (p ph t : Nat) : t < cronNextMs p ph t := by
  unfold cronNextMs; omega

/-
Claim C5: next_run strictly after the reference instant.
-/

/-- C5, counterexample.  The claim states that next_run(job, t) is strictly
greater than t whenever non-null, for SPECIFIC_TIME schedules too.  But the
SPECIFIC_TIME branch of calculateNextRun compares the specific time against
the current wall clock, not against the reference instant: with the clock
at 0, reference instant 100 and specific time 50, the function returns 50,
which is not greater than 100. -/
theorem calculateNextRun_gt_counterexample :
    calculateNextRun
        ⟨"j", none, JobType.http, "http://t", none, ScheduleType.specific_time,
          none, some 50, none, none, JobStatus.active⟩
        (JsDate.ofMs 100) 0 = some (JsDate.ofMs 50) ∧
      (JsDate.ofMs 50).toMs ≤ (JsDate.ofMs 100).toMs := by
  constructor
  · rfl
  · decide

/-- C5, amended: for every job and every reference instant t that is not in
the future of the current clock (in particular for every call the program
makes, which always passes the current time), calculateNextRun returns an
instant strictly greater than t whenever it returns one at all, for CRON,
RECURRING (every interval) and SPECIFIC_TIME schedules alike. -/
theorem calculateNextRun_strictly_future
    (job : JobInput) (lastRun : JsDate) (now : Nat)
    (hle : lastRun.toMs ≤ now) (d : JsDate)
    (h : calculateNextRun job lastRun now = some d) :
    lastRun.toMs < d.toMs := by
  unfold calculateNextRun at h
  split at h
  · -- CRON schedule
    split at h
    · exact absurd h (by simp)
    · exact absurd h (by simp)
    · injection h with h
      subst h
      rw [JsDate.toMs_ofMs]
      exact cronNextMs_gt _ _ _
  · -- SPECIFIC_TIME schedule
    split at h
    · exact absurd h (by simp)
    · split at h
      · exact absurd h (by simp)
      · rename_i st hnow
        injection h with h
        subst h
        rw [JsDate.toMs_ofMs]
        omega
  · -- RECURRING schedule
    split at h
    · split at h
      · exact absurd h (by simp)
      · rename_i i v heqi heqv hz
        unfold calculateNextRunForInterval at h
        split at h
        · exact absurd h (by simp)
        · rename_i hneg
          have hpos : 0 < v.toNat := by omega
          split at h <;> (injection h with h; subst h)
          · rw [JsDate.toMs_addMs]
            have := Nat.mul_pos hpos (show 0 < msPerMinute by decide)
            omega
          · rw [JsDate.toMs_addMs]
            have := Nat.mul_pos hpos (show 0 < msPerHour by decide)
            omega
          · rw [JsDate.toMs_addMs]
            have := Nat.mul_pos hpos (show 0 < msPerDay by decide)
            omega
          · rw [JsDate.toMs_addMs]
            have := Nat.mul_pos hpos (show 0 < msPerWeek by decide)
            omega
          · exact JsDate.toMs_addMonths_gt lastRun v.toNat hpos
          · exact JsDate.toMs_addYears_gt lastRun v.toNat hpos
    · exact absurd h (by simp)

/-- C5, witness: the amended theorem applied to a concrete every-minute
recurring job at instant 0. -/
theorem calculateNextRun_strictly_future_witness :
    (JsDate.ofMs 0).toMs < ((JsDate.ofMs 0).addMs (1 * msPerMinute)).toMs :=
  calculateNextRun_strictly_future
    ⟨"j", none, JobType.http, "http://t", none, ScheduleType.recurring,
      none, none, some IntervalType.minute, some 1, JobStatus.active⟩
    (JsDate.ofMs 0) 0 (by decide) ((JsDate.ofMs 0).addMs (1 * msPerMinute))
    (by rfl)

/-
Claim C2: sanitisation removes dangerous keys.
-/

/-- C2, counterexample.  The claim states that the sanitised payload
contains none of the dangerous keys at any nesting depth, including objects
nested inside arrays.  But the recursion of sanitizePayload skips every
value that is an array (the Array.isArray test), so a dangerous key inside
an object that sits in an array survives sanitisation. -/
theorem sanitizePayload_array_counterexample :
    hasDangerousObj
      (sanitizePayload
        (JObj.cons "a"
          (JVal.arr
            (JArr.cons (JVal.obj (JObj.cons "constructor" (JVal.jsonNum 1) JObj.nil))
              JArr.nil))
          JObj.nil)) = true := by
  rfl

/-- C2, amended: the sanitised payload contains none of the keys __proto__,
constructor or prototype at any depth reachable through plain-object values
only; objects nested inside arrays are not visited and may retain such
keys. -/
theorem sanitizePayload_object_chain_clean (p : JObj) :
    objChainClean (sanitizePayload p) = true := by
  induction p using sanitizePayload.induct with
  | case1 => rfl
  | case2 k v tl hd ih =>
    have hm : k ∈ dangerousProps := by simpa using hd
    rw [sanitizePayload.eq_def]
    simp [hm, ih]
  | case3 k fields tl hd ih1 ih2 =>
    simp_all [sanitizePayload, objChainClean]
  | case4 k v tl hd hobj ih =>
    simp_all [sanitizePayload, objChainClean]

/-
Claim C9: error classification and retryability.
-/

/-- C9, counterexample.  The claim states that any error other than the
listed HTTP-status and timeout cases is UNKNOWN and non-retryable.  But an
axios error with no response whose code is not ECONNABORTED and whose
message contains no timeout marker falls through to NETWORK, which is
retryable: a DNS failure (code ENOTFOUND, message "boom") is classified
NETWORK and retried, where the claim predicts UNKNOWN and no retry. -/
theorem error_classification_counterexample :
    categorizeError ⟨false, true, some "ENOTFOUND", "boom", none⟩ =
        ErrorCategory.network ∧
      isRetryableError ⟨false, true, some "ENOTFOUND", "boom", none⟩ = true ∧
      ErrorCategory.network ≠ ErrorCategory.unknown := by
  refine ⟨by rfl, by rfl, by decide⟩

/-- C9, amended: retryable holds exactly for the NETWORK, TIMEOUT and
SERVER categories; a response with status in [400,500) is CLIENT and one
with status ≥ 500 is SERVER (status < 400 falls to UNKNOWN); a
response-less axios error is TIMEOUT when its code is ECONNABORTED, or
when its code is not ConnectionRefused and its message contains
"timeout"; every other response-less axios error is NETWORK (hence
retryable); a Zod validation error is VALIDATION; non-axios, non-Zod
errors are UNKNOWN. -/
theorem error_classification (e : JsError) :
    (isRetryableError e = true ↔
      (categorizeError e = ErrorCategory.network ∨
        categorizeError e = ErrorCategory.timeout ∨
        categorizeError e = ErrorCategory.server)) ∧
    (e.isZodError = true → categorizeError e = ErrorCategory.validation) ∧
    (e.isZodError = false → e.isAxiosError = false →
      categorizeError e = ErrorCategory.unknown) ∧
    (∀ st : Int, e.isZodError = false → e.isAxiosError = true →
      e.responseStatus = some st →
      (500 ≤ st → categorizeError e = ErrorCategory.server) ∧
      (400 ≤ st → st < 500 → categorizeError e = ErrorCategory.client) ∧
      (st < 400 → categorizeError e = ErrorCategory.unknown)) ∧
    (e.isZodError = false → e.isAxiosError = true → e.responseStatus = none →
      (e.code = some "ECONNABORTED" → categorizeError e = ErrorCategory.timeout) ∧
      (e.code ≠ some "ECONNABORTED" → e.code ≠ some "ConnectionRefused" →
        strIncludes e.message "timeout" = true →
        categorizeError e = ErrorCategory.timeout) ∧
      (e.code ≠ some "ECONNABORTED" →
        (e.code = some "ConnectionRefused" ∨ strIncludes e.message "timeout" = false) →
        categorizeError e = ErrorCategory.network)) := by
  refine ⟨?_, ?_, ?_, ?_, ?_⟩
  · cases hcat : categorizeError e <;>
      rw [isRetryableError, hcat] <;> decide
  · intro hz
    simp [categorizeError, hz]
  · intro hz ha
    simp [categorizeError, hz, ha]
  · intro st hz ha hr
    refine ⟨?_, ?_, ?_⟩
    · intro h5
      simp only [categorizeError, hz, ha, hr]
      simp only [Bool.false_eq_true, if_false, if_true]
      split_ifs <;> first | rfl | omega
    · intro h4 h45
      simp only [categorizeError, hz, ha, hr]
      simp only [Bool.false_eq_true, if_false, if_true]
      split_ifs <;> first | rfl | omega
    · intro hlt
      simp only [categorizeError, hz, ha, hr]
      simp only [Bool.false_eq_true, if_false, if_true]
      split_ifs <;> first | rfl | omega
  · intro hz ha hr
    refine ⟨?_, ?_, ?_⟩
    · intro hcode
      simp [categorizeError, hz, ha, hr, hcode]
    · intro h1 h2 ht
      simp only [categorizeError, hz, ha, hr]
      simp only [Bool.false_eq_true, if_false, if_true]
      split_ifs <;> simp_all
    · intro h1 hd
      simp only [categorizeError, hz, ha, hr]
      simp only [Bool.false_eq_true, if_false, if_true]
      rcases hd with hd | hd <;> split_ifs <;> simp_all

/-- C9, witness: the amended theorem applied to a concrete 404 response
classifies it CLIENT. -/
theorem error_classification_witness :
    categorizeError ⟨false, true, none, "Request failed", some 404⟩ =
      ErrorCategory.client :=
  ((error_classification ⟨false, true, none, "Request failed", some 404⟩).2.2.2.1
      404 rfl rfl rfl).2.1 (by decide) (by decide)

/-
Claim C10: localhost targets are not rejected.
-/

/-- C10, confirmed: validateTargetUrl never rejects a target solely for
pointing at localhost or 127.0.0.1 — for every http or https URL with such
a hostname it returns true whenever the allow-list is empty or matches the
hostname (the localhost test only logs a warning), and the worker then
proceeds to the outbound POST for such targets. -/
theorem validateTargetUrl_allows_localhost
    (allowed : List String) (proto host : String)
    (hp : proto = "http:" ∨ proto = "https:")
    (hh : host = "localhost" ∨ host = "127.0.0.1")
    (hal : allowed = [] ∨ allowed.any (fun a => allowedHostMatches host a) = true) :
    validateTargetUrl allowed (some ⟨proto, host⟩) = true ∧
    (∀ (s : EngineState) (data : JobData) (row : JobRow)
        (delivery : DeliveryOutcome) (now : Nat),
      findJob s.jobs data.jobId = some row →
      row.status ≠ JobStatus.inactive →
      data.payload = none →
      (processJob s data (some ⟨proto, host⟩) allowed delivery now).httpAttempted
        = true) := by
  have hv : validateTargetUrl allowed (some ⟨proto, host⟩) = true := by
    unfold validateTargetUrl
    have hcp : (["http:", "https:"].contains proto) = true := by
      rcases hp with h | h <;> subst h <;> decide
    simp only [hcp, Bool.not_true, Bool.false_eq_true, if_false]
    rcases hal with h | h
    · subst h; rfl
    · by_cases he : allowed.isEmpty
      · simp [he]
      · simp [he, h]
  refine ⟨hv, ?_⟩
  intro s data row delivery now hfind hstatus hpayload
  simp only [processJob, hfind]
  rw [if_neg hstatus]
  rw [if_neg (by rw [hv]; simp)]
  rw [hpayload]
  rw [if_neg (by decide)]
  cases delivery <;> rfl

/-- C10, witness: the theorem applied to an empty allow-list, protocol
http and hostname localhost, with a concrete active job. -/
theorem validateTargetUrl_allows_localhost_witness :
    validateTargetUrl [] (some ⟨"http:", "localhost"⟩) = true ∧
    (processJob
        ⟨[⟨"a", "n", none, JobType.http, "http://localhost/x", none, none,
            ScheduleType.specific_time, some 10, none, none, none, none, none,
            JobStatus.active, 0, 0⟩], [], []⟩
        ⟨"a", "http://localhost/x", JobType.http, none⟩
        (some ⟨"http:", "localhost"⟩) [] DeliveryOutcome.ok 0).httpAttempted
      = true :=
  ⟨(validateTargetUrl_allows_localhost [] "http:" "localhost"
      (Or.inl rfl) (Or.inl rfl) (Or.inl rfl)).1,
    (validateTargetUrl_allows_localhost [] "http:" "localhost"
        (Or.inl rfl) (Or.inl rfl) (Or.inl rfl)).2
      ⟨[⟨"a", "n", none, JobType.http, "http://localhost/x", none, none,
          ScheduleType.specific_time, some 10, none, none, none, none, none,
          JobStatus.active, 0, 0⟩], [], []⟩
      ⟨"a", "http://localhost/x", JobType.http, none⟩
      ⟨"a", "n", none, JobType.http, "http://localhost/x", none, none,
        ScheduleType.specific_time, some 10, none, none, none, none, none,
        JobStatus.active, 0, 0⟩
      DeliveryOutcome.ok 0 (by rfl) (by decide) rfl⟩

/-
Claim C6: INACTIVE jobs never trigger outbound HTTP.
-/

/-- The worker handler on a dispatch whose authoritative row is INACTIVE:
state untouched, no HTTP attempt, success. -/
lemma processJob_inactive (s : EngineState) (data : JobData)
    (url : Option Url) (allowed : List String) (delivery : DeliveryOutcome)
    (now : Nat) (row : JobRow)
    (hfind : findJob s.jobs data.jobId = some row)
    (hst : row.status = JobStatus.inactive) :
    processJob s data url allowed delivery now = ⟨s, false, none⟩ := by
  simp only [processJob, hfind]
  rw [if_pos hst]

/-- Iterating dispatches of INACTIVE jobs leaves the state unchanged and
performs no HTTP attempt at all. -/
lemma processSeq_inactive (dsps : List Dispatch) :
    ∀ s : EngineState,
      (∀ dsp ∈ dsps, ∃ row, findJob s.jobs dsp.data.jobId = some row ∧
        row.status = JobStatus.inactive) →
      processSeq s dsps = (s, 0) := by
  induction dsps with
  | nil => intro s _; rfl
  | cons d rest ih =>
    intro s h
    obtain ⟨row, hf, hs⟩ := h d (by simp)
    have hstep := processJob_inactive s d.data d.url d.allowedTargetHosts
      d.delivery d.now row hf hs
    have hrest := ih s (fun dsp hmem => h dsp (List.mem_cons_of_mem _ hmem))
    simp [processSeq, hstep, hrest]

/-- C6, confirmed: a dispatch whose authoritative Store record is INACTIVE
makes the worker return success without any outbound HTTP call and without
touching the state; consequently any number of dispatches of INACTIVE jobs
yields zero outbound HTTP attempts. -/
theorem inactive_job_never_http :
    (∀ (s : EngineState) (data : JobData) (url : Option Url)
        (allowed : List String) (delivery : DeliveryOutcome) (now : Nat)
        (row : JobRow),
      findJob s.jobs data.jobId = some row →
      row.status = JobStatus.inactive →
      processJob s data url allowed delivery now = ⟨s, false, none⟩) ∧
    (∀ (s : EngineState) (dsps : List Dispatch),
      (∀ dsp ∈ dsps, ∃ row, findJob s.jobs dsp.data.jobId = some row ∧
        row.status = JobStatus.inactive) →
      processSeq s dsps = (s, 0)) :=
  ⟨fun s data url allowed delivery now row hf hs =>
      processJob_inactive s data url allowed delivery now row hf hs,
    fun s dsps h => processSeq_inactive dsps s h⟩

/-- C6, witness: two dispatches of a concrete INACTIVE job produce zero
HTTP attempts and leave the state unchanged. -/
theorem inactive_job_never_http_witness :
    processSeq
      ⟨[⟨"b", "n", none, JobType.http, "http://t/x", none, none,
          ScheduleType.recurring, none, some IntervalType.minute, some 1,
          none, none, none, JobStatus.inactive, 0, 0⟩], [], []⟩
      [⟨⟨"b", "http://t/x", JobType.http, none⟩, some ⟨"http:", "t"⟩, [],
          DeliveryOutcome.ok, 5⟩,
        ⟨⟨"b", "http://t/x", JobType.http, none⟩, some ⟨"http:", "t"⟩, [],
          DeliveryOutcome.ok, 9⟩] =
      (⟨[⟨"b", "n", none, JobType.http, "http://t/x", none, none,
          ScheduleType.recurring, none, some IntervalType.minute, some 1,
          none, none, none, JobStatus.inactive, 0, 0⟩], [], []⟩, 0) :=
  inactive_job_never_http.2
    ⟨[⟨"b", "n", none, JobType.http, "http://t/x", none, none,
        ScheduleType.recurring, none, some IntervalType.minute, some 1,
        none, none, none, JobStatus.inactive, 0, 0⟩], [], []⟩
    _
    (by
      intro dsp hmem
      refine ⟨⟨"b", "n", none, JobType.http, "http://t/x", none, none,
        ScheduleType.recurring, none, some IntervalType.minute, some 1,
        none, none, none, JobStatus.inactive, 0, 0⟩, ?_, rfl⟩
      rcases List.mem_cons.mp hmem with h | h
      · subst h; rfl
      · rcases List.mem_singleton.mp h with h
        subst h; rfl)

/-
Claim C1: non-retryable delivery failure.
-/

/-- C1, counterexample.  The claim states that a non-retryable delivery
failure enqueues an entry for the job into the dead-letter sub-queue.  With
a concrete active job whose delivery fails with a 404 (CLIENT,
non-retryable), the worker marks the row FAILED and re-raises, but the
dead-letter queue stays empty: no DLQ entry is enqueued anywhere in the
handler. -/
theorem worker_nonretryable_dlq_counterexample :
    (processJob
        ⟨[⟨"a", "n", none, JobType.http, "http://t/x", none, none,
            ScheduleType.specific_time, some 10, none, none, none, none, none,
            JobStatus.active, 0, 0⟩], [], []⟩
        ⟨"a", "http://t/x", JobType.http, none⟩ (some ⟨"http:", "t"⟩) []
        (DeliveryOutcome.err ⟨false, true, none,
          "Request failed with status code 404", some 404⟩) 0).state.dlq
      = [] ∧
    (processJob
        ⟨[⟨"a", "n", none, JobType.http, "http://t/x", none, none,
            ScheduleType.specific_time, some 10, none, none, none, none, none,
            JobStatus.active, 0, 0⟩], [], []⟩
        ⟨"a", "http://t/x", JobType.http, none⟩ (some ⟨"http:", "t"⟩) []
        (DeliveryOutcome.err ⟨false, true, none,
          "Request failed with status code 404", some 404⟩) 0).state.jobs.map
        (fun r => (r.status, r.error_message))
      = [(JobStatus.failed, some "Request failed with status code 404")] ∧
    (processJob
        ⟨[⟨"a", "n", none, JobType.http, "http://t/x", none, none,
            ScheduleType.specific_time, some 10, none, none, none, none, none,
            JobStatus.active, 0, 0⟩], [], []⟩
        ⟨"a", "http://t/x", JobType.http, none⟩ (some ⟨"http:", "t"⟩) []
        (DeliveryOutcome.err ⟨false, true, none,
          "Request failed with status code 404", some 404⟩) 0).raised
      = some ⟨false, true, none, "Request failed with status code 404", some 404⟩ := by
  refine ⟨by rfl, by rfl, by rfl⟩

/-- C1, amended: for every dispatched job whose delivery fails with a
non-retryable error, the worker sets the job row to FAILED with
error_message equal to the failure message and re-raises the error; it
enqueues nothing into the dead-letter sub-queue (both queues are left
unchanged). -/
theorem worker_nonretryable_marks_failed_no_dlq
    (s : EngineState) (data : JobData) (url : Option Url)
    (allowed : List String) (e : JsError) (now : Nat) (row : JobRow)
    (hfind : findJob s.jobs data.jobId = some row)
    (hstatus : row.status ≠ JobStatus.inactive)
    (hurl : validateTargetUrl allowed url = true)
    (hsize : jsonLenTop
        (match data.payload with | some p => p | none => JObj.nil)
      ≤ MAX_PAYLOAD_SIZE)
    (hretry : isRetryableError e = false) :
    (processJob s data url allowed (DeliveryOutcome.err e) now).raised
        = some e ∧
    (processJob s data url allowed (DeliveryOutcome.err e) now).state.dlq
        = s.dlq ∧
    (processJob s data url allowed (DeliveryOutcome.err e) now).state.queue
        = s.queue ∧
    (∀ q ∈ (processJob s data url allowed (DeliveryOutcome.err e) now).state.jobs,
      q.id = data.jobId →
      q.status = JobStatus.failed ∧
      q.error_message =
        some (if e.message = "" then "Unknown error" else e.message)) := by
  have hred : processJob s data url allowed (DeliveryOutcome.err e) now =
      workerCatch s data.jobId e now true := by
    simp only [processJob, hfind]
    rw [if_neg hstatus, if_neg (by rw [hurl]; simp),
      if_neg (Nat.not_lt.mpr hsize)]
  rw [hred]
  refine ⟨rfl, rfl, rfl, ?_⟩
  intro q hq hid
  simp only [workerCatch] at hq
  obtain ⟨r0, hr0, rfl⟩ := List.mem_map.mp hq
  by_cases hb : (r0.id == data.jobId) = true
  · rw [if_pos hb]
    simp [hretry]
  · rw [if_neg hb] at hid
    exact absurd (beq_iff_eq.mpr hid) hb

/-- C1, witness: the amended theorem applied to a concrete 404 failure of
an active job. -/
theorem worker_nonretryable_marks_failed_no_dlq_witness :
    (processJob
        ⟨[⟨"c", "n", none, JobType.http, "http://t/y", none, none,
            ScheduleType.specific_time, some 10, none, none, none, none, none,
            JobStatus.active, 0, 0⟩], [], [⟨"z", "zz", ⟨"z", "http://z", JobType.http, none⟩,
              QueueMode.delayed 1⟩]⟩
        ⟨"c", "http://t/y", JobType.http, none⟩ (some ⟨"http:", "t"⟩) []
        (DeliveryOutcome.err ⟨false, true, none, "Request failed", some 404⟩)
        7).raised = some ⟨false, true, none, "Request failed", some 404⟩ ∧
    (processJob
        ⟨[⟨"c", "n", none, JobType.http, "http://t/y", none, none,
            ScheduleType.specific_time, some 10, none, none, none, none, none,
            JobStatus.active, 0, 0⟩], [], [⟨"z", "zz", ⟨"z", "http://z", JobType.http, none⟩,
              QueueMode.delayed 1⟩]⟩
        ⟨"c", "http://t/y", JobType.http, none⟩ (some ⟨"http:", "t"⟩) []
        (DeliveryOutcome.err ⟨false, true, none, "Request failed", some 404⟩)
        7).state.dlq = [⟨"z", "zz", ⟨"z", "http://z", JobType.http, none⟩,
          QueueMode.delayed 1⟩] := by
  have h := worker_nonretryable_marks_failed_no_dlq
    ⟨[⟨"c", "n", none, JobType.http, "http://t/y", none, none,
        ScheduleType.specific_time, some 10, none, none, none, none, none,
        JobStatus.active, 0, 0⟩], [], [⟨"z", "zz", ⟨"z", "http://z", JobType.http, none⟩,
          QueueMode.delayed 1⟩]⟩
    ⟨"c", "http://t/y", JobType.http, none⟩ (some ⟨"http:", "t"⟩) []
    ⟨false, true, none, "Request failed", some 404⟩ 7
    ⟨"c", "n", none, JobType.http, "http://t/y", none, none,
      ScheduleType.specific_time, some 10, none, none, none, none, none,
      JobStatus.active, 0, 0⟩
    (by rfl) (by decide) (by rfl) (by decide) (by rfl)
  exact ⟨h.1, h.2.1⟩

/-
Claim C3: create with a null repeat plan.
-/

/-- C3, counterexample.  The claim states that when the repeat-plan
computation yields null the insert is rolled back so that no job row
remains.  Creating a RECURRING job with interval MONTH (repeat options
null) returns the invalid-repeat error, yet the inserted row is still in
the store: the handler returns 400 without deleting it. -/
theorem create_invalid_repeat_rollback_counterexample :
    (createJob ⟨[], [], []⟩
        ⟨"m", none, JobType.http, "http://t", none, ScheduleType.recurring,
          none, none, some IntervalType.month, some 1, JobStatus.active⟩
        "j1" 0).2 = ApiResult.invalidRepeatConfig ∧
    (createJob ⟨[], [], []⟩
        ⟨"m", none, JobType.http, "http://t", none, ScheduleType.recurring,
          none, none, some IntervalType.month, some 1, JobStatus.active⟩
        "j1" 0).1.jobs.map (fun r => r.id) = ["j1"] := by
  refine ⟨rfl, rfl⟩

/-- C3, amended: for every Create with schedule_type CRON or RECURRING
whose next_run computation succeeds but whose repeat_plan computation
yields null (for example RECURRING with interval MONTH or YEAR), Create
fails with the invalid-repeat error, but the insert performed during the
operation is not rolled back: the new job row remains in the store, and
no queue entry is created. -/
theorem create_invalid_repeat_keeps_row
    (s : EngineState) (input : JobInput) (newId : String) (now : Nat)
    (htype : input.schedule_type = ScheduleType.cron ∨
      input.schedule_type = ScheduleType.recurring)
    (hnext : calculateNextRun input (JsDate.ofMs now) now ≠ none)
    (hrep : calculateRepeatOptions input = none) :
    createJob s input newId now =
      ({ s with jobs := s.jobs ++
          [newJobRow input newId
            ((calculateNextRun input (JsDate.ofMs now) now).map
              (fun d => formatDateMs d.toMs)) now] },
        ApiResult.invalidRepeatConfig) := by
  have h2 : input.schedule_type ≠ ScheduleType.specific_time := by
    rcases htype with h | h <;> simp [h]
  simp only [createJob]
  rw [if_neg (fun hand => hnext hand.1), if_neg h2, hrep]

/-- C3, witness: the amended theorem applied to a concrete RECURRING MONTH
input on the empty state. -/
theorem create_invalid_repeat_keeps_row_witness :
    createJob ⟨[], [], []⟩
        ⟨"m", none, JobType.http, "http://t", none, ScheduleType.recurring,
          none, none, some IntervalType.month, some 1, JobStatus.active⟩
        "j2" 0 =
      (⟨[newJobRow
          ⟨"m", none, JobType.http, "http://t", none, ScheduleType.recurring,
            none, none, some IntervalType.month, some 1, JobStatus.active⟩
          "j2"
          ((calculateNextRun
              ⟨"m", none, JobType.http, "http://t", none, ScheduleType.recurring,
                none, none, some IntervalType.month, some 1, JobStatus.active⟩
              (JsDate.ofMs 0) 0).map (fun d => formatDateMs d.toMs)) 0],
          [], []⟩,
        ApiResult.invalidRepeatConfig) := by
  have h := create_invalid_repeat_keeps_row ⟨[], [], []⟩
    ⟨"m", none, JobType.http, "http://t", none, ScheduleType.recurring,
      none, none, some IntervalType.month, some 1, JobStatus.active⟩
    "j2" 0 (Or.inr rfl) (by decide) (by rfl)
  simpa using h

/-
Claim C7: delete.
-/

/-- C7, counterexample.  The claim states that Delete removes any DLQ entry
for the id.  With a concrete state holding a DLQ entry keyed by the job id,
deleting the job succeeds but the DLQ entry survives: the handler performs
no DLQ operation. -/
theorem delete_dlq_counterexample :
    (deleteJob
        ⟨[⟨"a", "n", none, JobType.http, "http://t/x", none, none,
            ScheduleType.specific_time, some 10, none, none, none, none, none,
            JobStatus.failed, 0, 0⟩], [],
          [⟨"a", "dl", ⟨"a", "http://t/x", JobType.http, none⟩,
            QueueMode.delayed 0⟩]⟩ "a").2 = ApiResult.jobDeleted ∧
    (deleteJob
        ⟨[⟨"a", "n", none, JobType.http, "http://t/x", none, none,
            ScheduleType.specific_time, some 10, none, none, none, none, none,
            JobStatus.failed, 0, 0⟩], [],
          [⟨"a", "dl", ⟨"a", "http://t/x", JobType.http, none⟩,
            QueueMode.delayed 0⟩]⟩ "a").1.dlq.map (fun e => e.key) = ["a"] := by
  refine ⟨rfl, rfl⟩

/-- C7, amended: Delete(id) removes the job row from the store and cancels
the queue registration for id (one-shot and repeating alike, per the
specified queue remove operation); it performs no dead-letter operation,
so a DLQ entry for id survives; a second Delete(id) returns NotFound and
changes nothing. -/
theorem delete_removes_row_and_queue
    (s : EngineState) (id : String) (row : JobRow)
    (hfind : findJob s.jobs id = some row) :
    deleteJob s id =
      ({ s with
          jobs := s.jobs.filter (fun r => r.id != id)
          queue := queueRemove s.queue id }, ApiResult.jobDeleted) ∧
    (deleteJob s id).1.dlq = s.dlq ∧
    findJob (deleteJob s id).1.jobs id = none ∧
    deleteJob (deleteJob s id).1 id = ((deleteJob s id).1, ApiResult.notFound) := by
  have h1 : deleteJob s id =
      ({ s with
          jobs := s.jobs.filter (fun r => r.id != id)
          queue := queueRemove s.queue id }, ApiResult.jobDeleted) := by
    simp only [deleteJob, hfind]
  have h2 : findJob (deleteJob s id).1.jobs id = none := by
    rw [h1]
    apply List.find?_eq_none.mpr
    intro x hx
    have hmem := (List.mem_filter.mp hx).2
    simp only [bne_iff_ne, ne_eq] at hmem
    simp [hmem]
  refine ⟨h1, by rw [h1], h2, ?_⟩
  conv_lhs => rw [deleteJob.eq_def]
  rw [h2]

/-- C7, witness: the theorem applied to a concrete one-row state. -/
theorem delete_removes_row_and_queue_witness :
    (deleteJob
        ⟨[⟨"d", "n", none, JobType.http, "http://t/x", none, none,
            ScheduleType.specific_time, some 10, none, none, none, none, none,
            JobStatus.active, 0, 0⟩],
          [⟨"d", "n", ⟨"d", "http://t/x", JobType.http, none⟩,
            QueueMode.delayed 3⟩], []⟩ "d").2 = ApiResult.jobDeleted ∧
    (deleteJob
        (deleteJob
          ⟨[⟨"d", "n", none, JobType.http, "http://t/x", none, none,
              ScheduleType.specific_time, some 10, none, none, none, none, none,
              JobStatus.active, 0, 0⟩],
            [⟨"d", "n", ⟨"d", "http://t/x", JobType.http, none⟩,
              QueueMode.delayed 3⟩], []⟩ "d").1 "d").2 = ApiResult.notFound := by
  have h := delete_removes_row_and_queue
    ⟨[⟨"d", "n", none, JobType.http, "http://t/x", none, none,
        ScheduleType.specific_time, some 10, none, none, none, none, none,
        JobStatus.active, 0, 0⟩],
      [⟨"d", "n", ⟨"d", "http://t/x", JobType.http, none⟩,
        QueueMode.delayed 3⟩], []⟩ "d"
    ⟨"d", "n", none, JobType.http, "http://t/x", none, none,
      ScheduleType.specific_time, some 10, none, none, none, none, none,
      JobStatus.active, 0, 0⟩ (by rfl)
  exact ⟨by rw [h.1], by rw [h.2.2.2]⟩

/-
Claim C8: SPECIFIC_TIME in the past.
-/

/-- C8, confirmed: for every Create or Update with schedule_type
SPECIFIC_TIME whose specific time is at or before the current instant,
the initial delay is null, the operation fails with the
specific-time-in-past error, no queue entry is created (update only
removes the old registration), and the store row remains with null
next_run (the inserted row for create, the rewritten row for update). -/
theorem specific_time_past_dormant
    (s : EngineState) (input : JobInput) (newId id : String) (now st : Nat)
    (htype : input.schedule_type = ScheduleType.specific_time)
    (hsp : input.specific_time = some st)
    (hpast : st ≤ now) :
    calculateInitialDelay input now = none ∧
    createJob s input newId now =
      ({ s with jobs := s.jobs ++ [newJobRow input newId none now] },
        ApiResult.specificTimeInPast) ∧
    (∀ row, findJob s.jobs id = some row →
      updateJob s id input now =
        ({ s with
            jobs := s.jobs.map (fun r =>
              if r.id == id then updatedRow r input none now else r)
            queue := queueRemove s.queue id },
          ApiResult.specificTimeInPast)) := by
  have hdelay : calculateInitialDelay input now = none := by
    simp [calculateInitialDelay, htype, hsp, hpast]
  have hnext : calculateNextRun input (JsDate.ofMs now) now = none := by
    simp [calculateNextRun, htype, hsp, hpast]
  refine ⟨hdelay, ?_, ?_⟩
  · simp only [createJob]
    rw [hnext]
    rw [if_neg (fun hand => hand.2 htype), if_pos htype, hdelay]
    simp
  · intro row hfindrow
    simp only [updateJob, hfindrow]
    rw [hnext]
    rw [if_neg (fun hand => hand.2 htype), if_pos htype, hdelay]
    simp

/-- C8, witness: the theorem applied to a concrete input whose specific
time equals the current instant (exactly now counts as past), against a
one-row state for the update half. -/
theorem specific_time_past_dormant_witness :
    calculateInitialDelay
        ⟨"s", none, JobType.http, "http://t", none, ScheduleType.specific_time,
          none, some 5, none, none, JobStatus.active⟩ 5 = none ∧
    (createJob
        ⟨[⟨"e", "n", none, JobType.http, "http://t/x", none, none,
            ScheduleType.specific_time, some 10, none, none, none, none, none,
            JobStatus.active, 0, 0⟩], [], []⟩
        ⟨"s", none, JobType.http, "http://t", none, ScheduleType.specific_time,
          none, some 5, none, none, JobStatus.active⟩ "n1" 5).2 =
      ApiResult.specificTimeInPast ∧
    (updateJob
        ⟨[⟨"e", "n", none, JobType.http, "http://t/x", none, none,
            ScheduleType.specific_time, some 10, none, none, none, none, none,
            JobStatus.active, 0, 0⟩], [], []⟩ "e"
        ⟨"s", none, JobType.http, "http://t", none, ScheduleType.specific_time,
          none, some 5, none, none, JobStatus.active⟩ 5).2 =
      ApiResult.specificTimeInPast := by
  have h := specific_time_past_dormant
    ⟨[⟨"e", "n", none, JobType.http, "http://t/x", none, none,
        ScheduleType.specific_time, some 10, none, none, none, none, none,
        JobStatus.active, 0, 0⟩], [], []⟩
    ⟨"s", none, JobType.http, "http://t", none, ScheduleType.specific_time,
      none, some 5, none, none, JobStatus.active⟩
    "n1" "e" 5 5 rfl rfl (by decide)
  refine ⟨h.1, by rw [h.2.1], ?_⟩
  rw [h.2.2 ⟨"e", "n", none, JobType.http, "http://t/x", none, none,
    ScheduleType.specific_time, some 10, none, none, none, none, none,
    JobStatus.active, 0, 0⟩ (by rfl)]

/-
Claim C4: FAILED implies error_message, across operations.
-/

/-- The jobs table after a create: unchanged on early rejection, otherwise
the old rows plus the freshly inserted one. -/
lemma createJob_jobs_cases (s : EngineState) (input : JobInput)
    (newId : String) (now : Nat) :
    (createJob s input newId now).1.jobs = s.jobs ∨
    ∃ nr, (createJob s input newId now).1.jobs =
      s.jobs ++ [newJobRow input newId nr now] := by
  simp only [createJob]
  split
  · exact Or.inl rfl
  · split
    · split
      · exact Or.inr ⟨_, rfl⟩
      · exact Or.inr ⟨_, rfl⟩
    · split
      · exact Or.inr ⟨_, rfl⟩
      · exact Or.inr ⟨_, rfl⟩

/-- The jobs table after an update: unchanged on 404 or early rejection,
otherwise the row rewrite of the UPDATE statement. -/
lemma updateJob_jobs_cases (s : EngineState) (id : String) (input : JobInput)
    (now : Nat) :
    (updateJob s id input now).1.jobs = s.jobs ∨
    ∃ nr, (updateJob s id input now).1.jobs =
      s.jobs.map (fun r => if r.id == id then updatedRow r input nr now else r) := by
  simp only [updateJob]
  split
  · exact Or.inl rfl
  · split
    · exact Or.inl rfl
    · split
      · split
        · exact Or.inr ⟨_, rfl⟩
        · exact Or.inr ⟨_, rfl⟩
      · split
        · exact Or.inr ⟨_, rfl⟩
        · exact Or.inr ⟨_, rfl⟩

/-- The jobs table after a delete: unchanged on 404, otherwise a filter. -/
lemma deleteJob_jobs_cases (s : EngineState) (id : String) :
    (deleteJob s id).1.jobs = s.jobs ∨
    (deleteJob s id).1.jobs = s.jobs.filter (fun r => r.id != id) := by
  simp only [deleteJob]
  split
  · exact Or.inl rfl
  · exact Or.inr rfl

/-- Run-now never touches the jobs table. -/
lemma runNowJob_jobs (s : EngineState) (id : String) (now : Nat) :
    (runNowJob s id now).1.jobs = s.jobs := by
  simp only [runNowJob]
  split <;> rfl

/-- The jobs table after a worker run: unchanged (stale or inactive
dispatch), the catch-block rewrite (which always writes an error message),
or the success rewrite (which clears the error message and keeps the
status). -/
lemma processJob_jobs_cases (s : EngineState) (data : JobData)
    (url : Option Url) (allowed : List String) (outcome : DeliveryOutcome)
    (now : Nat) :
    (processJob s data url allowed outcome now).state.jobs = s.jobs ∨
    (∃ msg stt, (processJob s data url allowed outcome now).state.jobs =
      s.jobs.map (fun r => if r.id == data.jobId then
        { r with error_message := some msg, status := stt, updated_at := now }
        else r)) ∨
    (outcome = DeliveryOutcome.ok ∧
      ∃ nr, (processJob s data url allowed outcome now).state.jobs =
        s.jobs.map (fun r => if r.id == data.jobId then
          { r with
              last_run := some now
              next_run := nr
              error_message := none
              updated_at := now }
          else r)) := by
  simp only [processJob]
  split
  · exact Or.inl rfl
  · split
    · exact Or.inl rfl
    · split
      · exact Or.inr (Or.inl ⟨_, _, rfl⟩)
      · split
        · exact Or.inr (Or.inl ⟨_, _, rfl⟩)
        · split
          · exact Or.inr (Or.inl ⟨_, _, rfl⟩)
          · exact Or.inr (Or.inr ⟨rfl, _, rfl⟩)

/-- C4, counterexample.  The claim asserts in particular that a successful
delivery, which clears error_message without changing status, preserves
the invariant.  On a store whose single row is FAILED with an error
message (the invariant holds), a successful delivery of that job clears
the message and leaves the status FAILED, breaking the invariant. -/
theorem error_invariant_counterexample :
    errorInvariant
      ⟨[⟨"f", "n", none, JobType.http, "http://t/x", none, none,
          ScheduleType.specific_time, some 10, none, none, none, none,
          some "boom", JobStatus.failed, 0, 0⟩], [], []⟩ ∧
    ¬ errorInvariant
      (applyOp
        ⟨[⟨"f", "n", none, JobType.http, "http://t/x", none, none,
            ScheduleType.specific_time, some 10, none, none, none, none,
            some "boom", JobStatus.failed, 0, 0⟩], [], []⟩
        (Op.deliver ⟨"f", "http://t/x", JobType.http, none⟩
          (some ⟨"http:", "t"⟩) [] DeliveryOutcome.ok 3)) := by
  constructor
  · decide
  · decide

/-- C4, amended: after any committed operation (coordinator
create/update/delete/run-now and worker success or failure completion),
every FAILED row has a non-null error_message, provided create and update
are not asked to write status FAILED and no successful delivery completes
for a job already FAILED; worker failure completions always write an error
message together with the status, and a successful delivery preserves the
invariant only because of that proviso — on a FAILED job it would clear
the message while leaving the status. -/
theorem error_invariant_preserved (s : EngineState) (op : Op)
    (hinv : errorInvariant s) (hok : opOk s op) :
    errorInvariant (applyOp s op) := by
  cases op with
  | create input newId now =>
    have hst : input.status ≠ JobStatus.failed := hok
    rcases createJob_jobs_cases s input newId now with h | ⟨nr, h⟩
    · intro r hr hf
      simp only [applyOp] at hr
      rw [h] at hr
      exact hinv r hr hf
    · intro r hr hf
      simp only [applyOp] at hr
      rw [h] at hr
      rcases List.mem_append.mp hr with hmem | hmem
      · exact hinv r hmem hf
      · have heq : r = newJobRow input newId nr now := by simpa using hmem
        subst heq
        exact absurd hf hst
  | update id input now =>
    have hst : input.status ≠ JobStatus.failed := hok
    rcases updateJob_jobs_cases s id input now with h | ⟨nr, h⟩
    · intro r hr hf
      simp only [applyOp] at hr
      rw [h] at hr
      exact hinv r hr hf
    · intro r hr hf
      simp only [applyOp] at hr
      rw [h] at hr
      obtain ⟨r0, hr0, rfl⟩ := List.mem_map.mp hr
      by_cases hb : (r0.id == id) = true
      · rw [if_pos hb] at hf
        exact absurd hf hst
      · rw [if_neg hb] at hf ⊢
        exact hinv r0 hr0 hf
  | delete id =>
    rcases deleteJob_jobs_cases s id with h | h
    · intro r hr hf
      simp only [applyOp] at hr
      rw [h] at hr
      exact hinv r hr hf
    · intro r hr hf
      simp only [applyOp] at hr
      rw [h] at hr
      exact hinv r (List.mem_filter.mp hr).1 hf
  | runNow id now =>
    intro r hr hf
    simp only [applyOp] at hr
    rw [runNowJob_jobs] at hr
    exact hinv r hr hf
  | deliver data url allowed outcome now =>
    rcases processJob_jobs_cases s data url allowed outcome now with
      h | ⟨msg, stt, h⟩ | ⟨hout, nr, h⟩
    · intro r hr hf
      simp only [applyOp] at hr
      rw [h] at hr
      exact hinv r hr hf
    · intro r hr hf
      simp only [applyOp] at hr
      rw [h] at hr
      obtain ⟨r0, hr0, rfl⟩ := List.mem_map.mp hr
      by_cases hb : (r0.id == data.jobId) = true
      · rw [if_pos hb]
        simp
      · rw [if_neg hb] at hf ⊢
        exact hinv r0 hr0 hf
    · subst hout
      intro r hr hf
      simp only [applyOp] at hr
      rw [h] at hr
      obtain ⟨r0, hr0, rfl⟩ := List.mem_map.mp hr
      by_cases hb : (r0.id == data.jobId) = true
      · rw [if_pos hb] at hf
        exact absurd hf (hok r0 hr0 (beq_iff_eq.mp hb))
      · rw [if_neg hb] at hf ⊢
        exact hinv r0 hr0 hf

/-- C4, witness: the amended theorem applied to a concrete failure
completion (a 404) on a healthy one-row store. -/
theorem error_invariant_preserved_witness :
    errorInvariant
      (applyOp
        ⟨[⟨"g", "n", none, JobType.http, "http://t/x", none, none,
            ScheduleType.specific_time, some 10, none, none, none, none, none,
            JobStatus.active, 0, 0⟩], [], []⟩
        (Op.deliver ⟨"g", "http://t/x", JobType.http, none⟩
          (some ⟨"http:", "t"⟩) []
          (DeliveryOutcome.err ⟨false, true, none, "Request failed", some 404⟩)
          3)) :=
  error_invariant_preserved
    ⟨[⟨"g", "n", none, JobType.http, "http://t/x", none, none,
        ScheduleType.specific_time, some 10, none, none, none, none, none,
        JobStatus.active, 0, 0⟩], [], []⟩
    (Op.deliver ⟨"g", "http://t/x", JobType.http, none⟩
      (some ⟨"http:", "t"⟩) []
      (DeliveryOutcome.err ⟨false, true, none, "Request failed", some 404⟩)
      3)
    (by decide) trivial
